import Mathlib

/-!
Verification of the word2morph inference/evaluation pipeline.

This file gives a shallow embedding of `src/word2morph/api.py` (class
`Word2Morph`) and `src/word2morph/util/metrics.py` (function
`multi_class_roc_auc_score`, class `Evaluate`), and proves properties of the
embedded functions.

Conventions of the embedding:
* A per-character class-probability vector is a `List ℚ`; a word-level
  prediction or label tensor is a `List` of such vectors (`WordPred`); a batch
  is a `List WordPred`; an epoch is a `List BatchPred`.
* `np.argmax` is `argmaxIdx` (index of the first maximal entry; numpy's
  ValueError on an empty 2-D stack is modelled by the explicit emptiness
  checks in `Evaluate.evaluate`, mirroring line 59 of metrics.py).
* Python exceptions that can escape the evaluation pass are modelled by
  `Except EvalError`: `emptyArgmax` is numpy's "attempt to get argmax of an
  empty sequence" ValueError, `lengthMismatch` is sklearn's inconsistent-
  length ValueError raised by `confusion_matrix`, `divByZero` is Python's
  ZeroDivisionError from `correct / nb_words`, `onlyOneClass` is sklearn's
  "Only one class present in y_true" ValueError raised by `roc_auc_score`,
  and `assertionFailed` is the AssertionError of the
  `assert len(all_samples) == len(predicted_samples)` line.
* sklearn metrics are embedded over ℚ with their documented default
  behaviour: `confusion_matrix` and the macro-averaged precision / recall /
  f1 index by the sorted distinct classes occurring in `t` or `p`;
  `roc_auc_score` on the LabelBinarizer outputs is the Mann-Whitney
  pair-counting value. The `log_loss` entry of the metric tuple is the only
  one not embedded: its value is transcendental (logarithms) and it raises
  no exception on the rectangular one-hot inputs considered here, so it
  affects neither the error behaviour nor any other entry of the record.
* The model, the `DataProcessor` and the `DataGenerator` live outside the
  two source files; the model is an abstract parameter (the spec's opaque
  Model capability), and the processor and generator are modelled from the
  spec where needed (their definitions say so in their doc comments).
-/

/-- A per-character class-probability (or one-hot) vector. -/
abbrev CharVec := List ℚ

/-- A word-level tensor: one `CharVec` per character. -/
abbrev WordPred := List CharVec

/-- A batch of word-level tensors. -/
abbrev BatchPred := List WordPred

/-- `Sample` from word2morph/entities/sample.py: a word with its (ground-truth
or predicted) morpheme segments; two samples are equal iff word and segments
are equal. -/
structure Sample where
  word : String
  segments : List String
deriving DecidableEq

instance : Inhabited Sample :=
  ⟨⟨"", []⟩⟩

/-- Python exceptions that can escape the metric computation (see module
doc comment for which source line each constructor models). -/
inductive EvalError where
  | emptyArgmax
  | lengthMismatch
  | divByZero
  | onlyOneClass
  | assertionFailed
deriving DecidableEq

/-- A metric value is a scalar or an integer matrix (the confusion matrix). -/
inductive MetricValue where
  | mat : List (List Nat) → MetricValue
  | scalar : ℚ → MetricValue
deriving DecidableEq

/-- The ordered `(metric_name, value)` record returned by `Evaluate.evaluate`. -/
abbrev MetricRecord := List (String × MetricValue)

/-- `np.argmax` over a probability vector: index of the first maximal entry
(numpy keeps the first occurrence on ties); `0` for the empty vector. -/
def argmaxIdx (xs : List ℚ) : Nat :=
  (List.range xs.length).foldl
    (fun best i => if xs.getD best 0 < xs.getD i 0 then i else best) 0

/-- The arg-max tag sequence of a word tensor
(`np.argmax(word, axis=-1)`). -/
def argmaxSeq (w : WordPred) : List Nat :=
  w.map argmaxIdx

/-- metrics.py lines 41-45: the number of words whose arg-max tag sequence in
the prediction equals the one in the label, accumulated over
`zip(predictions, labels)` and `zip(batch_prediction, batch_label)`. -/
def wordCorrect (predictions labels : List BatchPred) : Nat :=
  ((predictions.zip labels).map (fun bl =>
    (bl.1.zip bl.2).countP (fun wl => decide (argmaxSeq wl.1 = argmaxSeq wl.2)))).sum

/-- metrics.py line 46: `nb_words += len(batch_label)` inside the loop over
`zip(predictions, labels)`. -/
def nbWords (predictions labels : List BatchPred) : Nat :=
  ((predictions.zip labels).map (fun bl => bl.2.length)).sum

/-- metrics.py lines 51-52: the (prediction, label) word pairs visited by the
nested `zip` loops, in visiting order. -/
def zippedWords (predictions labels : List BatchPred) : List (WordPred × WordPred) :=
  ((predictions.zip labels).map (fun bl => bl.1.zip bl.2)).flatten

/-- metrics.py line 53: all per-character prediction vectors of the pass,
concatenated in visiting order. -/
def charPredictions (predictions labels : List BatchPred) : List CharVec :=
  ((zippedWords predictions labels).map (fun wl => wl.1)).flatten

/-- metrics.py line 54: all per-character label vectors of the pass,
concatenated in visiting order. -/
def charLabels (predictions labels : List BatchPred) : List CharVec :=
  ((zippedWords predictions labels).map (fun wl => wl.2)).flatten

/-- The sorted distinct classes occurring in `t` or `p`: sklearn's
`unique_labels(y_true, y_pred)`, used by `confusion_matrix`,
`precision_score`, `recall_score` and `f1_score` when `labels=None`. -/
def sortedClasses (t p : List Nat) : List Nat :=
  ((t ++ p).dedup).insertionSort (· ≤ ·)

/-- sklearn `confusion_matrix(t, p)` (no `labels` argument): a square matrix
indexed by `sortedClasses t p`, entry `(i, j)` counting the positions whose
true class is the `i`-th and predicted class the `j`-th distinct class. -/
def confusionMatrix (t p : List Nat) : List (List Nat) :=
  let cls := sortedClasses t p
  cls.map (fun ci => cls.map (fun cj =>
    (t.zip p).countP (fun ab => decide (ab.1 = ci ∧ ab.2 = cj))))

/-- sklearn `accuracy_score(t, p)`: exact-match rate. -/
def accuracyScore (t p : List Nat) : ℚ :=
  (((t.zip p).countP (fun ab => decide (ab.1 = ab.2)) : ℚ)) / (t.length : ℚ)

/-- Per-class precision with sklearn's zero-division-to-0 default. -/
def classPrecision (t p : List Nat) (c : Nat) : ℚ :=
  let tp := (t.zip p).countP (fun ab => decide (ab.1 = c ∧ ab.2 = c))
  let pp := p.countP (fun x => decide (x = c))
  if pp = 0 then 0 else (tp : ℚ) / (pp : ℚ)

/-- Per-class recall with sklearn's zero-division-to-0 default. -/
def classRecall (t p : List Nat) (c : Nat) : ℚ :=
  let tp := (t.zip p).countP (fun ab => decide (ab.1 = c ∧ ab.2 = c))
  let tc := t.countP (fun x => decide (x = c))
  if tc = 0 then 0 else (tp : ℚ) / (tc : ℚ)

/-- sklearn `precision_score(t, p, average='macro')`. -/
def precisionScore (t p : List Nat) : ℚ :=
  let cls := sortedClasses t p
  ((cls.map (classPrecision t p)).sum) / (cls.length : ℚ)

/-- sklearn `recall_score(t, p, average='macro')`. -/
def recallScore (t p : List Nat) : ℚ :=
  let cls := sortedClasses t p
  ((cls.map (classRecall t p)).sum) / (cls.length : ℚ)

/-- Per-class F1: harmonic mean of precision and recall, 0 when both are 0. -/
def classF1 (t p : List Nat) (c : Nat) : ℚ :=
  let pr := classPrecision t p c
  let rc := classRecall t p c
  if pr + rc = 0 then 0 else 2 * pr * rc / (pr + rc)

/-- sklearn `f1_score(t, p, average='macro')`. -/
def f1Score (t p : List Nat) : ℚ :=
  let cls := sortedClasses t p
  ((cls.map (classF1 t p)).sum) / (cls.length : ℚ)

/-- Binary `roc_auc_score` for boolean truth `y` and scores `s`: the
Mann-Whitney statistic (ties count one half) over positive/negative pairs. -/
def binaryRocAuc (y : List Bool) (s : List ℚ) : ℚ :=
  let pairs := y.zip s
  let pos := (pairs.filter (fun a => a.1)).map (fun a => a.2)
  let neg := (pairs.filter (fun a => !a.1)).map (fun a => a.2)
  ((pos.map (fun sp =>
    (neg.map (fun sn => if sn < sp then (1 : ℚ) else if sp = sn then (1 : ℚ) / 2 else 0)).sum)).sum)
    / ((pos.length : ℚ) * (neg.length : ℚ))

/-- The 0/1 indicator column that `LabelBinarizer.transform` produces for
class `c`. -/
def indicatorCol (c : Nat) (xs : List Nat) : List ℚ :=
  xs.map (fun x => if x = c then 1 else 0)

/-- metrics.py lines 13-18, `multi_class_roc_auc_score(y_test, y_pred)`:
`LabelBinarizer` is fit on `y_test` only; with a single class present the
binarized truth is constant and sklearn's `roc_auc_score` raises
`ValueError("Only one class present in y_true...")` (modelled as
`Except.error .onlyOneClass`); with exactly two classes the binarizer emits
one indicator column for the larger class; with three or more it emits one
column per class, macro-averaged. -/
def multiClassRocAucScore (t p : List Nat) : Except EvalError ℚ :=
  let cls := (t.dedup).insertionSort (· ≤ ·)
  if cls.length ≤ 1 then Except.error EvalError.onlyOneClass
  else if cls.length = 2 then
    Except.ok (binaryRocAuc (t.map (fun x => decide (x = cls.getD 1 0)))
      (indicatorCol (cls.getD 1 0) p))
  else
    Except.ok (((cls.map (fun c =>
      binaryRocAuc (t.map (fun x => decide (x = c))) (indicatorCol c p))).sum)
      / (cls.length : ℚ))

/-- metrics.py lines 30-67, `Evaluate.evaluate(predictions, labels)`:
word-level accuracy over the zipped batches, then the char-level metrics over
the flattened pass. Failure modes, in the order the Python lines run them:
`np.argmax` of an empty flattened array (line 59, first `char_labels` then
`char_predictions`), sklearn's length-consistency check inside
`confusion_matrix` (line 60), the `correct / nb_words` division (line 61),
and the single-class `roc_auc_score` ValueError (line 67). The `log_loss`
entry is omitted (see module doc comment). -/
def Evaluate.evaluate (predictions labels : List BatchPred) : Except EvalError MetricRecord :=
  let correct := wordCorrect predictions labels
  let nb_words := nbWords predictions labels
  let char_predictions := charPredictions predictions labels
  let char_labels := charLabels predictions labels
  if char_labels.isEmpty then Except.error EvalError.emptyArgmax
  else if char_predictions.isEmpty then Except.error EvalError.emptyArgmax
  else
    let t := char_labels.map argmaxIdx
    let p := char_predictions.map argmaxIdx
    if t.length ≠ p.length then Except.error EvalError.lengthMismatch
    else if nb_words = 0 then Except.error EvalError.divByZero
    else
      match multiClassRocAucScore t p with
      | Except.error e => Except.error e
      | Except.ok auc =>
        Except.ok [("confusion_matrix", MetricValue.mat (confusionMatrix t p)),
                   ("word_acc", MetricValue.scalar ((correct : ℚ) / (nb_words : ℚ))),
                   ("acc", MetricValue.scalar (accuracyScore t p)),
                   ("precision", MetricValue.scalar (precisionScore t p)),
                   ("recall", MetricValue.scalar (recallScore t p)),
                   ("f1", MetricValue.scalar (f1Score t p)),
                   ("auc", MetricValue.scalar auc)]

/-- One batch yielded by the data generator with `with_samples=True`:
encoded inputs, one-hot label tensors, and the source samples. -/
structure Batch (ι : Type) where
  inputs : List ι
  labels : BatchPred
  samples : List Sample

/-- metrics.py lines 69-105, `Evaluate.on_epoch_end`: consume `nb_steps`
batches from the generator, run the model on each, compute the metric record,
write it into `logs` under `prepend_str + name`, decode every prediction into
a Sample via `to_sample`, assert the decoded count matches the consumed
count, recompute the metric record (the second
`self.evaluate(predictions=epoch_predictions, labels=epoch_labels)` call of
line 94, on the same arguments) and write it under
`prepend_str + name + '_processed'`, then split the (ground truth, decoded)
pairs into the `correct` and `wrong` lists of `(predicted, expected)` pairs.
The mutated `logs` dict is returned alongside the Python return value. -/
def Evaluate.on_epoch_end {ι : Type} (prepend_str : String)
    (to_sample : String → WordPred → Sample)
    (modelPredict : List ι → BatchPred)
    (data_generator : List (Batch ι)) (nb_steps : Nat) :
    Except EvalError (MetricRecord × List (Sample × Sample) × List (Sample × Sample) × List Sample) :=
  let consumed := data_generator.take nb_steps
  let epoch_labels := consumed.map (fun b => b.labels)
  let epoch_predictions := consumed.map (fun b => modelPredict b.inputs)
  let epoch_samples := consumed.map (fun b => b.samples)
  let all_samples := epoch_samples.flatten
  match Evaluate.evaluate epoch_predictions epoch_labels with
  | Except.error e => Except.error e
  | Except.ok metrics =>
    let logs1 : MetricRecord := metrics.map (fun nv => (prepend_str ++ nv.1, nv.2))
    let predicted_samples :=
      ((epoch_predictions.zip (epoch_labels.zip epoch_samples)).map (fun b =>
        (b.1.zip (b.2.1.zip b.2.2)).map (fun w => to_sample w.2.2.word w.1))).flatten
    if all_samples.length = predicted_samples.length then
      match Evaluate.evaluate epoch_predictions epoch_labels with
      | Except.error e => Except.error e
      | Except.ok metrics2 =>
        let logs := logs1 ++ metrics2.map (fun nv => (prepend_str ++ nv.1 ++ "_processed", nv.2))
        let zipped := all_samples.zip predicted_samples
        let correct := (zipped.filter (fun cp => decide (cp.2 = cp.1))).map (fun cp => (cp.2, cp.1))
        let wrong := (zipped.filter (fun cp => !(decide (cp.2 = cp.1)))).map (fun cp => (cp.2, cp.1))
        Except.ok (logs, correct, wrong, predicted_samples)
    else Except.error EvalError.assertionFailed

/-- Modelled from the spec: `DataProcessor` (word2morph/data/processing.py is
not under src/). Per spec §4.1 it deterministically encodes a batch of
samples into input rows (`parseInputs`) and one-hot label tensors
(`parseLabels`), and decodes a word plus a prediction tensor into a Sample
(`to_sample`); per spec §3's encoded-batch invariant the encoded rows are in
bijection with the samples, recorded here as the two length laws. -/
structure DataProcessor (ι : Type) where
  parseInputs : List Sample → List ι
  parseLabels : List Sample → BatchPred
  to_sample : String → WordPred → Sample
  parse_length : ∀ ss : List Sample, (parseInputs ss).length = ss.length
  labels_length : ∀ ss : List Sample, (parseLabels ss).length = ss.length

/-- Modelled from the spec: `DataProcessor.parse_one` (§4.1), the
single-sample wrapper equivalent to `parse([sample])` with the batch
dimension stripped. -/
def parse_one {ι : Type} [Inhabited ι] (proc : DataProcessor ι) (s : Sample) : ι :=
  (proc.parseInputs [s]).headI

/-- Structural worker for `chunkList`: the fuel bounds the number of chunks
(one unit per chunk suffices once `B ≥ 1`), keeping the recursion structural
so that concrete runs reduce inside the kernel. -/
def chunkListFuel {α : Type} (B : Nat) : Nat → List α → List (List α)
  | _, [] => []
  | 0, _ :: _ => []
  | fuel + 1, x :: rest =>
    ((x :: rest).take B) :: chunkListFuel B fuel ((x :: rest).drop B)

/-- Consecutive slices of size `B` (the last one may be shorter). -/
def chunkList {α : Type} (B : Nat) (xs : List α) : List (List α) :=
  if B = 0 then [] else chunkListFuel B xs.length xs

theorem chunkListFuel_congr {α : Type} (B : Nat) (hB : B ≠ 0) :
    ∀ (f₁ f₂ : Nat) (xs : List α), xs.length ≤ f₁ → xs.length ≤ f₂ →
      chunkListFuel B f₁ xs = chunkListFuel B f₂ xs := by
  intro f₁
  induction f₁ with
  | zero =>
    intro f₂ xs h₁ _
    have hx : xs = [] := List.eq_nil_of_length_eq_zero (Nat.le_zero.mp h₁)
    subst hx
    cases f₂ <;> simp [chunkListFuel]
  | succ f ih =>
    intro f₂ xs h₁ h₂
    match xs, f₂ with
    | [], _ => cases f₂ <;> simp [chunkListFuel]
    | x :: rest, 0 => exact absurd h₂ (by simp)
    | x :: rest, f₂' + 1 =>
      have hdrop : ((x :: rest).drop B).length ≤ f := by
        simp only [List.length_drop, List.length_cons]
        have hB1 : 1 ≤ B := Nat.one_le_iff_ne_zero.mpr hB
        have := Nat.succ_le_of_lt (Nat.lt_of_lt_of_le (Nat.lt_succ_self rest.length)
          (Nat.le_refl _))
        simp only [List.length_cons] at h₁
        omega
      have hdrop₂ : ((x :: rest).drop B).length ≤ f₂' := by
        simp only [List.length_drop, List.length_cons]
        have hB1 : 1 ≤ B := Nat.one_le_iff_ne_zero.mpr hB
        simp only [List.length_cons] at h₂
        omega
      show ((x :: rest).take B) :: chunkListFuel B f ((x :: rest).drop B) =
        ((x :: rest).take B) :: chunkListFuel B f₂' ((x :: rest).drop B)
      rw [ih f₂' ((x :: rest).drop B) hdrop hdrop₂]

theorem chunkList_nil {α : Type} (B : Nat) : chunkList B ([] : List α) = [] := by
  by_cases hB : B = 0 <;> simp [chunkList, hB, chunkListFuel]

theorem chunkList_cons {α : Type} (B : Nat) (hB : B ≠ 0) (x : α) (rest : List α) :
    chunkList B (x :: rest) =
      ((x :: rest).take B) :: chunkList B ((x :: rest).drop B) := by
  simp only [chunkList, if_neg hB]
  show chunkListFuel B (rest.length + 1) (x :: rest) = _
  have hstep : chunkListFuel B (rest.length + 1) (x :: rest) =
      ((x :: rest).take B) :: chunkListFuel B rest.length ((x :: rest).drop B) := rfl
  rw [hstep, chunkListFuel_congr B hB rest.length ((x :: rest).drop B).length
    ((x :: rest).drop B) (by simp only [List.length_drop, List.length_cons]; omega) le_rfl]

/-- Modelled from the spec: `DataGenerator` (word2morph/data/generators.py is
not under src/). Per spec §4.2 and §8, with `shuffle=False` and
`with_samples=True` it yields `ceil(N/B)` batches, batch `i` holding the
dataset slice `[i*B, min((i+1)*B, N))` together with its encoded inputs and
labels, so that concatenating the yielded sample lists reproduces the
dataset order exactly. -/
def dataGenerator {ι : Type} (proc : DataProcessor ι) (batch_size : Nat)
    (samples : List Sample) : List (Batch ι) :=
  (chunkList batch_size samples).map (fun c => ⟨proc.parseInputs c, proc.parseLabels c, c⟩)

/-- api.py lines 29-44, `Word2Morph.predict`: drive the generator with
`shuffle=False`, feed each batch to the model, decode each row via
`to_sample`, and concatenate in batch order. -/
def Word2Morph.predict {ι : Type} (proc : DataProcessor ι)
    (modelPredict : List ι → BatchPred) (inputs : List Sample) (batch_size : Nat) :
    List Sample :=
  ((dataGenerator proc batch_size inputs).map (fun b =>
    (b.samples.zip (modelPredict b.inputs)).map
      (fun sp => proc.to_sample sp.1.word sp.2))).flatten

/-- api.py lines 46-61, `Word2Morph.evaluate`: build the generator over the
whole input list, run `Evaluate.on_epoch_end` with `nb_steps` equal to the
generator length and `prepend_str='test_'`, and return its
(correct, wrong, predictions) triple (the logs dict is local to the call). -/
def Word2Morph.evaluate {ι : Type} (proc : DataProcessor ι)
    (modelPredict : List ι → BatchPred) (inputs : List Sample) (batch_size : Nat) :
    Except EvalError (List (Sample × Sample) × List (Sample × Sample) × List Sample) :=
  let gen := dataGenerator proc batch_size inputs
  (Evaluate.on_epoch_end "test_" proc.to_sample modelPredict gen gen.length).map
    (fun r => r.2)

/-- api.py lines 71-75, `Word2Morph.__getitem__` applied to a Sample:
`parse_one`, a singleton model batch, and `to_sample` on row 0. -/
def Word2Morph.getitemSample {ι : Type} [Inhabited ι] (proc : DataProcessor ι)
    (modelPredict : List ι → BatchPred) (item : Sample) : Sample :=
  proc.to_sample item.word ((modelPredict [parse_one proc item]).headI)

/-- api.py line 72, `Word2Morph.__getitem__` applied to a string: the string
is wrapped as `Sample(word=item, segments=tuple())` first. -/
def Word2Morph.getitemStr {ι : Type} [Inhabited ι] (proc : DataProcessor ι)
    (modelPredict : List ι → BatchPred) (item : String) : Sample :=
  Word2Morph.getitemSample proc modelPredict (Sample.mk item [])

/-- Segment a word at the given ascending character start positions: each
segment runs from one start to the next, the last to the end of the word
(`String.take` / `String.drop` count characters). -/
def sliceAt (w : String) : List Nat → List String
  | [] => []
  | [s] => [w.drop s]
  | s :: s' :: rest => ((w.drop s).take (s' - s)) :: sliceAt w (s' :: rest)

/-- Modelled from the spec: `DataProcessor.to_sample`
(word2morph/data/processing.py is not under src/). Per spec §4.1 and the §8
scenarios, the prediction tensor is decoded by per-character arg-max; class 0
is the boundary-start tag, so segment starts are the positions tagged 0
(the "running" scenario: boundary markers at positions 0, 3, 4 give segments
"run", "n", "ing"); an invalid sequence whose first character is not tagged
boundary-start is repaired to a single segment covering the whole word
(§8: a continuation tag at character index 0 decodes via repair to a
single-segment Sample). The §4.1 ShapeError on a prediction whose length
differs from the word length is not modelled; every use here has matching
lengths. -/
def to_sampleSpec (word : String) (prediction : WordPred) : Sample :=
  let tags := prediction.map argmaxIdx
  let starts := (List.range tags.length).filter (fun i => decide (tags.getD i 1 = 0))
  match starts with
  | 0 :: _ => Sample.mk word (sliceAt word starts)
  | _ => Sample.mk word [word]

/-- The model outputs of a `Word2Morph.predict` pass, flattened in batch
order: the prediction row that `predict` decodes for the `i`-th input is the
`i`-th entry of this list. -/
def flatPredictions {ι : Type} (proc : DataProcessor ι)
    (modelPredict : List ι → BatchPred) (batch_size : Nat) (inputs : List Sample) :
    List WordPred :=
  ((chunkList batch_size inputs).map (fun c => modelPredict (proc.parseInputs c))).flatten

/-- The samples consumed by `Evaluate.on_epoch_end`: the samples of the first
`nb_steps` generator batches, concatenated in generator order. -/
def consumedSamples {ι : Type} (data_generator : List (Batch ι)) (nb_steps : Nat) :
    List Sample :=
  ((data_generator.take nb_steps).map (fun b => b.samples)).flatten

/-- The model outputs of an `Evaluate.on_epoch_end` pass, flattened in
generator order. -/
def consumedPredictions {ι : Type} (modelPredict : List ι → BatchPred)
    (data_generator : List (Batch ι)) (nb_steps : Nat) : List WordPred :=
  ((data_generator.take nb_steps).map (fun b => modelPredict b.inputs)).flatten

/-- The spec's description of the "processed" sample-level accuracy (§4.3):
re-decode each prediction of the pass into a Sample via `to_sample` and take
the fraction of samples whose decoded prediction equals the ground truth.
This is the claim-side definition; it is compared against what the code's
`_processed` record actually holds. -/
def processedSampleAccuracy (to_sample : String → WordPred → Sample)
    (predictions : List WordPred) (truths : List Sample) : ℚ :=
  (((truths.zip predictions).countP
    (fun sp => decide (to_sample sp.1.word sp.2 = sp.1)) : ℚ)) / (truths.length : ℚ)

/-- The number of tag classes of a pass: the width of its one-hot label
vectors (spec §3: the label tensor has shape `[batch, max_word_len,
num_tag_classes]`). -/
def numTagClasses (labels : List BatchPred) : Nat :=
  (labels.flatten.flatten.headI).length

/-- Look a metric up in the record of a metric computation that may have
failed. -/
def recordLookup (e : Except EvalError MetricRecord) (k : String) : Option MetricValue :=
  match e with
  | Except.ok r => r.lookup k
  | Except.error _ => none

/-- Look a metric up in the logs written by `Evaluate.on_epoch_end`. -/
def logsLookup {α : Type}
    (e : Except EvalError (MetricRecord × α)) (k : String) : Option MetricValue :=
  match e with
  | Except.ok r => r.1.lookup k
  | Except.error _ => none

/-- The one-hot tag tensor of an `n`-character single-segment word under the
two-class scheme of `to_sampleSpec`: boundary-start (class 0) on the first
character, continuation (class 1) elsewhere. -/
def singleSegmentTensor (n : Nat) : WordPred :=
  (List.range n).map (fun i => if i = 0 then [(1 : ℚ), 0] else [(0 : ℚ), 1])

/-- A small concrete processor instantiating the abstract `DataProcessor` in
the witnesses below: a sample is encoded as its word length, labelled with
the single-segment one-hot tensor of that length, and decoded by the spec
decoder. -/
def toyProcessor : DataProcessor Nat :=
  ⟨fun ss => ss.map (fun s => s.word.length),
   fun ss => ss.map (fun s => singleSegmentTensor s.word.length),
   to_sampleSpec,
   fun ss => by simp,
   fun ss => by simp⟩

/-- A small concrete length-preserving model for the witnesses: an encoded
input row (a word length) maps to the single-segment tensor of that length. -/
def toyModel (b : List Nat) : BatchPred :=
  b.map singleSegmentTensor

/-- A two-batch generator fixture (words "ab" and "cd", each its own batch,
all tags correct) for the evaluation witnesses. -/
def toyGen : List (Batch Nat) :=
  [⟨[2], [[[(1 : ℚ), 0], [(0 : ℚ), 1]]], [Sample.mk "ab" ["ab"]]⟩,
   ⟨[2], [[[(1 : ℚ), 0], [(0 : ℚ), 1]]], [Sample.mk "cd" ["cd"]]⟩]

/-- Decidable equality for the `Except` results of the embedded computations
(used to evaluate concrete runs inside proofs). -/
instance {ε α : Type} [DecidableEq ε] [DecidableEq α] : DecidableEq (Except ε α) := fun x y =>
  match x, y with
  | Except.ok a, Except.ok b =>
    if h : a = b then isTrue (by rw [h]) else isFalse (fun hc => h (Except.ok.inj hc))
  | Except.error a, Except.error b =>
    if h : a = b then isTrue (by rw [h]) else isFalse (fun hc => h (Except.error.inj hc))
  | Except.ok _, Except.error _ => isFalse (fun hc => Except.noConfusion hc)
  | Except.error _, Except.ok _ => isFalse (fun hc => Except.noConfusion hc)

/-! ## Helper lemmas -/

theorem chunkList_flatten {α : Type} (B : Nat) (hB : B ≠ 0) (xs : List α) :
    (chunkList B xs).flatten = xs := by
  suffices h : ∀ (n : Nat) (ys : List α), ys.length ≤ n → (chunkList B ys).flatten = ys by
    exact h xs.length xs le_rfl
  intro n
  induction n with
  | zero =>
    intro ys hy
    have : ys = [] := List.eq_nil_of_length_eq_zero (Nat.le_zero.mp hy)
    subst this
    rw [chunkList_nil]
    rfl
  | succ n ih =>
    intro ys hy
    match ys with
    | [] =>
      rw [chunkList_nil]
      rfl
    | y :: rest =>
      rw [chunkList_cons B hB y rest, List.flatten_cons,
        ih ((y :: rest).drop B) (by
          simp only [List.length_drop, List.length_cons]
          simp only [List.length_cons] at hy
          omega)]
      exact List.take_append_drop _ _

theorem flatten_zipWith {α β γ : Type} (f : α → β → γ) :
    ∀ {as : List (List α)} {bs : List (List β)},
      List.Forall₂ (fun a b => a.length = b.length) as bs →
      ((as.zip bs).map (fun ab => List.zipWith f ab.1 ab.2)).flatten =
        List.zipWith f as.flatten bs.flatten := by
  intro as bs h
  induction h with
  | nil => rfl
  | @cons a b as bs hab _ ih =>
    simp only [List.zip_cons_cons, List.map_cons, List.flatten_cons, ih, List.flatten_cons]
    exact (List.zipWith_append f a as.flatten b bs.flatten hab).symm

theorem flatten_length_eq {α β : Type} :
    ∀ {as : List (List α)} {bs : List (List β)},
      List.Forall₂ (fun a b => a.length = b.length) as bs →
      as.flatten.length = bs.flatten.length := by
  intro as bs h
  induction h with
  | nil => rfl
  | @cons a b as bs hab _ ih => simp [hab, ih]

theorem forall₂_map_len {α β γ : Type} {l : List α} (f : α → List β) (g : α → List γ)
    (h : ∀ x ∈ l, (f x).length = (g x).length) :
    List.Forall₂ (fun a b => a.length = b.length) (l.map f) (l.map g) := by
  induction l with
  | nil => exact List.Forall₂.nil
  | cons x xs ih =>
    exact List.Forall₂.cons (h x (List.mem_cons_self x xs))
      (ih (fun y hy => h y (List.mem_cons_of_mem x hy)))

theorem decode_batch (f : String → WordPred → Sample) :
    ∀ (ss : List Sample) (ps ls : BatchPred),
      ps.length = ss.length → ls.length = ss.length →
      (ps.zip (ls.zip ss)).map (fun w => f w.2.2.word w.1) =
        List.zipWith (fun s pr => f s.word pr) ss ps := by
  intro ss
  induction ss with
  | nil =>
    intro ps ls hp _
    have : ps = [] := List.eq_nil_of_length_eq_zero hp
    subst this
    rfl
  | cons s ss ih =>
    intro ps ls hp hl
    match ps, ls with
    | p :: ps, l :: ls =>
      simp only [List.zip_cons_cons, List.map_cons, List.zipWith_cons_cons]
      exact congrArg _ (ih ps ls (by simpa using hp) (by simpa using hl))

theorem flatten_map_zipWith {α β γ δ : Type} (f : α → β → γ)
    (s : δ → List α) (g : δ → List β) (l : List δ)
    (h : ∀ x ∈ l, (g x).length = (s x).length) :
    (l.map (fun x => List.zipWith f (s x) (g x))).flatten =
      List.zipWith f ((l.map s).flatten) ((l.map g).flatten) := by
  induction l with
  | nil => rfl
  | cons x xs ih =>
    simp only [List.map_cons, List.flatten_cons]
    rw [ih (fun y hy => h y (List.mem_cons_of_mem x hy)),
      List.zipWith_append f _ _ _ _ (h x (List.mem_cons_self x xs)).symm]

theorem map_pair_zip_eq_zipWith {α β γ : Type} (f : α → β → γ) :
    ∀ (l₁ : List α) (l₂ : List β),
      (l₁.zip l₂).map (fun p => f p.1 p.2) = List.zipWith f l₁ l₂ := by
  intro l₁ l₂
  rw [List.zip_eq_zipWith, List.map_zipWith]

theorem onEpochEnd_ok_components {ι : Type} {prepend_str : String}
    {to_sample : String → WordPred → Sample} {modelPredict : List ι → BatchPred}
    {gen : List (Batch ι)} {nb_steps : Nat} {logs : MetricRecord}
    {c w : List (Sample × Sample)} {preds : List Sample}
    (h : Evaluate.on_epoch_end prepend_str to_sample modelPredict gen nb_steps =
      Except.ok (logs, c, w, preds)) :
    (consumedSamples gen nb_steps).length = preds.length ∧
    preds = ((((gen.take nb_steps).map (fun b => modelPredict b.inputs)).zip
        (((gen.take nb_steps).map (fun b => b.labels)).zip
          ((gen.take nb_steps).map (fun b => b.samples)))).map
        (fun b => (b.1.zip (b.2.1.zip b.2.2)).map
          (fun w' => to_sample w'.2.2.word w'.1))).flatten ∧
    c = (((consumedSamples gen nb_steps).zip preds).filter
        (fun cp => decide (cp.2 = cp.1))).map (fun cp => (cp.2, cp.1)) ∧
    w = (((consumedSamples gen nb_steps).zip preds).filter
        (fun cp => !(decide (cp.2 = cp.1)))).map (fun cp => (cp.2, cp.1)) := by
  simp only [Evaluate.on_epoch_end] at h
  split at h
  · exact absurd h (by simp)
  · split at h
    · rename_i hcond
      split at h
      · exact absurd h (by simp)
      · simp only [Except.ok.injEq, Prod.mk.injEq] at h
        obtain ⟨-, hc, hw, hp⟩ := h
        subst hc hw hp
        exact ⟨hcond, rfl, rfl, rfl⟩
    · exact absurd h (by simp)

theorem onEpochEnd_preds_eq {ι : Type} {prepend_str : String}
    {to_sample : String → WordPred → Sample} {modelPredict : List ι → BatchPred}
    {gen : List (Batch ι)} {nb_steps : Nat} {logs : MetricRecord}
    {c w : List (Sample × Sample)} {preds : List Sample}
    (hlen : ∀ b ∈ gen.take nb_steps,
      (modelPredict b.inputs).length = b.samples.length ∧ b.labels.length = b.samples.length)
    (h : Evaluate.on_epoch_end prepend_str to_sample modelPredict gen nb_steps =
      Except.ok (logs, c, w, preds)) :
    preds = List.zipWith (fun s pr => to_sample s.word pr)
      (consumedSamples gen nb_steps) (consumedPredictions modelPredict gen nb_steps) := by
  obtain ⟨-, hp, -, -⟩ := onEpochEnd_ok_components h
  rw [hp, List.zip_map', List.zip_map', List.map_map]
  have hbatch : ∀ b ∈ gen.take nb_steps,
      ((fun x => (x.1.zip (x.2.1.zip x.2.2)).map (fun w' => to_sample w'.2.2.word w'.1)) ∘
        (fun b' => (modelPredict b'.inputs, b'.labels, b'.samples))) b =
      List.zipWith (fun s pr => to_sample s.word pr) b.samples (modelPredict b.inputs) := by
    intro b hb
    simp only [Function.comp]
    exact decode_batch to_sample b.samples (modelPredict b.inputs) b.labels
      (hlen b hb).1 (hlen b hb).2
  rw [List.map_congr_left hbatch,
    flatten_map_zipWith (fun s pr => to_sample s.word pr)
      (fun b => b.samples) (fun b => modelPredict b.inputs) (gen.take nb_steps)
      (fun b hb => (hlen b hb).1)]
  rfl

theorem predict_eq_zipWith {ι : Type} (proc : DataProcessor ι)
    (modelPredict : List ι → BatchPred)
    (hm : ∀ b, (modelPredict b).length = b.length)
    (inputs : List Sample) (B : Nat) (hB : B ≠ 0) :
    Word2Morph.predict proc modelPredict inputs B =
      List.zipWith (fun s pr => proc.to_sample s.word pr) inputs
        (flatPredictions proc modelPredict B inputs) ∧
    (flatPredictions proc modelPredict B inputs).length = inputs.length := by
  have hg : ∀ ch ∈ chunkList B inputs,
      (modelPredict (proc.parseInputs ch)).length = (id ch).length := by
    intro ch _
    rw [hm, proc.parse_length]
    rfl
  constructor
  · unfold Word2Morph.predict dataGenerator
    rw [List.map_map]
    have hbatch : ∀ ch ∈ chunkList B inputs,
        ((fun b => (b.samples.zip (modelPredict b.inputs)).map
          (fun sp => proc.to_sample sp.1.word sp.2)) ∘
          (fun c => (⟨proc.parseInputs c, proc.parseLabels c, c⟩ : Batch ι))) ch =
        List.zipWith (fun s pr => proc.to_sample s.word pr) (id ch)
          (modelPredict (proc.parseInputs ch)) := by
      intro ch _
      simp only [Function.comp, id]
      exact map_pair_zip_eq_zipWith (fun s pr => proc.to_sample s.word pr) ch
        (modelPredict (proc.parseInputs ch))
    rw [List.map_congr_left hbatch,
      flatten_map_zipWith (fun s pr => proc.to_sample s.word pr) id
        (fun ch => modelPredict (proc.parseInputs ch)) (chunkList B inputs) hg,
      List.map_id, chunkList_flatten B hB]
    rfl
  · have := flatten_length_eq (forall₂_map_len
      (fun ch => modelPredict (proc.parseInputs ch)) id
      (fun ch hch => hg ch hch) (l := chunkList B inputs))
    rw [List.map_id, chunkList_flatten B hB] at this
    exact this

theorem zippedWords_eq_zip_flatten {predictions labels : List BatchPred}
    (hal : List.Forall₂ (fun bp bl => bp.length = bl.length) predictions labels) :
    zippedWords predictions labels = predictions.flatten.zip labels.flatten := by
  unfold zippedWords
  simp only [List.zip_eq_zipWith]
  have hmap : (predictions.zip labels).map (fun bl => List.zipWith Prod.mk bl.1 bl.2) =
      (predictions.zip labels).map (fun bl => List.zipWith Prod.mk bl.1 bl.2) := rfl
  calc ((List.zipWith Prod.mk predictions labels).map
        (fun bl => List.zipWith Prod.mk bl.1 bl.2)).flatten
      = ((predictions.zip labels).map
        (fun ab => List.zipWith Prod.mk ab.1 ab.2)).flatten := by
        rw [List.zip_eq_zipWith]
    _ = List.zipWith Prod.mk predictions.flatten labels.flatten := flatten_zipWith Prod.mk hal

theorem wordCorrect_eq_flat_count {predictions labels : List BatchPred}
    (hal : List.Forall₂ (fun bp bl => bp.length = bl.length) predictions labels) :
    wordCorrect predictions labels =
      (predictions.flatten.zip labels.flatten).countP
        (fun wl => decide (argmaxSeq wl.1 = argmaxSeq wl.2)) := by
  unfold wordCorrect
  rw [← zippedWords_eq_zip_flatten hal, zippedWords, List.countP_flatten, List.map_map]
  rfl

theorem nbWords_eq_flat_length {predictions labels : List BatchPred}
    (hal : List.Forall₂ (fun bp bl => bp.length = bl.length) predictions labels) :
    nbWords predictions labels = labels.flatten.length := by
  unfold nbWords
  rw [List.length_flatten]
  congr 1
  have : (predictions.zip labels).map (fun bl => bl.2.length) =
      ((predictions.zip labels).map Prod.snd).map List.length := by
    rw [List.map_map]
    rfl
  rw [this, List.map_snd_zip predictions labels (le_of_eq hal.length_eq.symm)]

theorem evaluate_ok_shape {predictions labels : List BatchPred} {r : MetricRecord}
    (h : Evaluate.evaluate predictions labels = Except.ok r) :
    ∃ auc,
      multiClassRocAucScore ((charLabels predictions labels).map argmaxIdx)
        ((charPredictions predictions labels).map argmaxIdx) = Except.ok auc ∧
      r = [("confusion_matrix", MetricValue.mat
              (confusionMatrix ((charLabels predictions labels).map argmaxIdx)
                ((charPredictions predictions labels).map argmaxIdx))),
           ("word_acc", MetricValue.scalar
              ((wordCorrect predictions labels : ℚ) / (nbWords predictions labels : ℚ))),
           ("acc", MetricValue.scalar
              (accuracyScore ((charLabels predictions labels).map argmaxIdx)
                ((charPredictions predictions labels).map argmaxIdx))),
           ("precision", MetricValue.scalar
              (precisionScore ((charLabels predictions labels).map argmaxIdx)
                ((charPredictions predictions labels).map argmaxIdx))),
           ("recall", MetricValue.scalar
              (recallScore ((charLabels predictions labels).map argmaxIdx)
                ((charPredictions predictions labels).map argmaxIdx))),
           ("f1", MetricValue.scalar
              (f1Score ((charLabels predictions labels).map argmaxIdx)
                ((charPredictions predictions labels).map argmaxIdx))),
           ("auc", MetricValue.scalar auc)] := by
  simp only [Evaluate.evaluate] at h
  split at h
  · exact absurd h (by simp)
  · split at h
    · exact absurd h (by simp)
    · split at h
      · exact absurd h (by simp)
      · split at h
        · exact absurd h (by simp)
        · split at h
          · exact absurd h (by simp)
          · rename_i auc hauc
            exact ⟨auc, hauc, (Except.ok.inj h).symm⟩

/-! ## Claim theorems -/

/-- C9 (amended): a pass that consumes no batches (`nb_steps = 0` or an empty
generator) makes `Evaluate.on_epoch_end` fail — but with numpy's
argmax-of-an-empty-sequence ValueError raised when flattening the char-level
labels (metrics.py line 59), which fires before the `correct / nb_words`
division of line 61 is ever evaluated; a non-empty pass is therefore a
precondition of evaluation, unlike `predict` which accepts empty input. -/
theorem c9_empty_pass_fails_with_argmax_error {ι : Type} (prepend_str : String)
    (to_sample : String → WordPred → Sample) (modelPredict : List ι → BatchPred)
    (data_generator : List (Batch ι)) (nb_steps : Nat)
    (h : nb_steps = 0 ∨ data_generator = []) :
    Evaluate.on_epoch_end prepend_str to_sample modelPredict data_generator nb_steps =
      Except.error EvalError.emptyArgmax := by
  rcases h with h | h
  · subst h
    rfl
  · subst h
    cases nb_steps <;> rfl

/-- C9 witness: a concrete generator with one batch, consumed for zero steps,
fails with the argmax error. -/
theorem c9_empty_pass_fails_with_argmax_error_witness :
    ((0 : Nat) = 0 ∨ ([⟨[2], [[[(1 : ℚ), 0], [0, 1]]], [Sample.mk "ab" ["ab"]]⟩] :
      List (Batch Nat)) = []) ∧
    Evaluate.on_epoch_end "val_" to_sampleSpec toyModel
      ([⟨[2], [[[(1 : ℚ), 0], [0, 1]]], [Sample.mk "ab" ["ab"]]⟩] : List (Batch Nat)) 0 =
      Except.error EvalError.emptyArgmax :=
  ⟨Or.inl rfl,
    c9_empty_pass_fails_with_argmax_error "val_" to_sampleSpec toyModel _ 0 (Or.inl rfl)⟩

/-- C9 counterexample: on an empty pass the code fails with the
argmax-of-empty error, which is not the division-by-zero error the claim
names — the `word_acc` division is never reached. -/
theorem c9_counterexample_error_is_not_division :
    Evaluate.on_epoch_end "val_" to_sampleSpec toyModel ([] : List (Batch Nat)) 3 =
      Except.error EvalError.emptyArgmax ∧
    EvalError.emptyArgmax ≠ EvalError.divByZero := by
  exact ⟨rfl, by decide⟩

/-- C6: the code never signals a `MetricUndefined` condition — on a pass whose
flattened character labels hold a single class (here: the one-character word
"a", label one-hot `[[1, 0]]`, prediction identical), sklearn's
`roc_auc_score` raises `ValueError("Only one class present in y_true...")`
inside `multi_class_roc_auc_score`; the exception propagates out of
`Evaluate.evaluate` uncaught, aborting the pass with no metric record (and no
placeholder) produced. -/
theorem c6_single_class_pass_propagates_value_error :
    Evaluate.evaluate [[[[(1 : ℚ), 0]]]] [[[[(1 : ℚ), 0]]]] =
      Except.error EvalError.onlyOneClass := by
  rfl

/-- C5 counterexample: a pass whose one-hot label width (`num_tag_classes`)
is 3 but in which only classes 0 and 1 occur yields a 2×2 confusion matrix,
not the claimed fixed 3×3. -/
theorem c5_counterexample_confusion_size :
    recordLookup (Evaluate.evaluate [[[[(1 : ℚ), 0, 0], [0, 1, 0]]]]
        [[[[(1 : ℚ), 0, 0], [0, 1, 0]]]]) "confusion_matrix" =
      some (MetricValue.mat [[1, 0], [0, 1]]) ∧
    numTagClasses [[[[(1 : ℚ), 0, 0], [0, 1, 0]]]] = 3 ∧
    ([[1, 0], [0, 1]] : List (List Nat)).length ≠ 3 := by
  exact ⟨rfl, rfl, by decide⟩

/-- C5 (amended): the `confusion_matrix` entry of the metric record is the
square integer matrix indexed by the sorted distinct classes actually
occurring among the arg-max true and predicted labels of the pass (rows =
true class, columns = predicted class); its size is the number of occurring
classes — `num_tag_classes × num_tag_classes` only when every class occurs. -/
theorem c5_confusion_matrix_is_occurring_class_square (predictions labels : List BatchPred)
    (r : MetricRecord) (h : Evaluate.evaluate predictions labels = Except.ok r) :
    r.lookup "confusion_matrix" = some (MetricValue.mat
      (confusionMatrix ((charLabels predictions labels).map argmaxIdx)
        ((charPredictions predictions labels).map argmaxIdx))) ∧
    (confusionMatrix ((charLabels predictions labels).map argmaxIdx)
        ((charPredictions predictions labels).map argmaxIdx)).length =
      (sortedClasses ((charLabels predictions labels).map argmaxIdx)
        ((charPredictions predictions labels).map argmaxIdx)).length ∧
    (∀ row ∈ confusionMatrix ((charLabels predictions labels).map argmaxIdx)
        ((charPredictions predictions labels).map argmaxIdx),
      row.length = (sortedClasses ((charLabels predictions labels).map argmaxIdx)
        ((charPredictions predictions labels).map argmaxIdx)).length) ∧
    (∀ t p : List Nat, ∀ i j : Nat,
      i < (sortedClasses t p).length → j < (sortedClasses t p).length →
      ((confusionMatrix t p).getD i []).getD j 0 =
        (t.zip p).countP (fun ab =>
          decide (ab.1 = (sortedClasses t p).getD i 0 ∧
                  ab.2 = (sortedClasses t p).getD j 0))) := by
  obtain ⟨auc, -, hr⟩ := evaluate_ok_shape h
  subst hr
  have hgetRow : ∀ (l : List Nat) (f : Nat → List Nat) (i : Nat), i < l.length →
      (l.map f).getD i [] = f (l.getD i 0) := by
    intro l f i hi
    rw [List.getD_eq_getElem?_getD, List.getElem?_map, List.getElem?_eq_getElem hi,
      List.getD_eq_getElem?_getD, List.getElem?_eq_getElem hi]
    rfl
  have hgetEntry : ∀ (l : List Nat) (f : Nat → Nat) (j : Nat), j < l.length →
      (l.map f).getD j 0 = f (l.getD j 0) := by
    intro l f j hj
    rw [List.getD_eq_getElem?_getD, List.getElem?_map, List.getElem?_eq_getElem hj,
      List.getD_eq_getElem?_getD, List.getElem?_eq_getElem hj]
    rfl
  refine ⟨rfl, by simp [confusionMatrix], ?_, ?_⟩
  · intro row hrow
    simp only [confusionMatrix, List.mem_map] at hrow
    obtain ⟨ci, -, hr'⟩ := hrow
    simp [← hr']
  · intro t p i j hi hj
    show ((confusionMatrix t p).getD i []).getD j 0 = _
    unfold confusionMatrix
    rw [hgetRow (sortedClasses t p) _ i hi, hgetEntry (sortedClasses t p) _ j hj]

/-- C5 witness: a two-class pass, evaluated concretely through the amended
theorem: the confusion matrix is the occurring-class square matrix and its
(0,1) entry counts the (true class 0, predicted class 1) positions. -/
theorem c5_confusion_matrix_is_occurring_class_square_witness :
    recordLookup (Evaluate.evaluate [[[[(1 : ℚ), 0], [0, 1]]]] [[[[(1 : ℚ), 0], [0, 1]]]])
      "confusion_matrix" = some (MetricValue.mat
        (confusionMatrix
          ((charLabels [[[[(1 : ℚ), 0], [0, 1]]]] [[[[(1 : ℚ), 0], [0, 1]]]]).map argmaxIdx)
          ((charPredictions [[[[(1 : ℚ), 0], [0, 1]]]]
            [[[[(1 : ℚ), 0], [0, 1]]]]).map argmaxIdx))) ∧
    ((confusionMatrix [0, 1] [0, 1]).getD 0 []).getD 1 0 =
      ([0, 1].zip [0, 1]).countP (fun ab =>
        decide (ab.1 = (sortedClasses [0, 1] [0, 1]).getD 0 0 ∧
                ab.2 = (sortedClasses [0, 1] [0, 1]).getD 1 0)) := by
  obtain ⟨r, hr⟩ : ∃ r, Evaluate.evaluate [[[[(1 : ℚ), 0], [0, 1]]]]
      [[[[(1 : ℚ), 0], [0, 1]]]] = Except.ok r := ⟨_, rfl⟩
  have hmain := c5_confusion_matrix_is_occurring_class_square
    [[[[(1 : ℚ), 0], [0, 1]]]] [[[[(1 : ℚ), 0], [0, 1]]]] r hr
  constructor
  · rw [hr]
    exact hmain.1
  · exact hmain.2.2.2 [0, 1] [0, 1] 0 1 (by decide) (by decide)

/-- C3: the `word_acc` entry of the metric record equals the fraction of
words of the pass whose per-character arg-max tag sequence of the prediction
equals — as an entire sequence, i.e. position by position over the full
padded length — the arg-max tag sequence of the label. -/
theorem c3_word_acc_is_argmax_match_fraction (predictions labels : List BatchPred)
    (r : MetricRecord)
    (hal : List.Forall₂ (fun bp bl => bp.length = bl.length) predictions labels)
    (h : Evaluate.evaluate predictions labels = Except.ok r) :
    r.lookup "word_acc" = some (MetricValue.scalar
      (((predictions.flatten.zip labels.flatten).countP
          (fun wl => decide (argmaxSeq wl.1 = argmaxSeq wl.2)) : ℚ) /
        (labels.flatten.length : ℚ))) := by
  obtain ⟨auc, -, hr⟩ := evaluate_ok_shape h
  subst hr
  calc ([("confusion_matrix", MetricValue.mat
              (confusionMatrix ((charLabels predictions labels).map argmaxIdx)
                ((charPredictions predictions labels).map argmaxIdx))),
         ("word_acc", MetricValue.scalar
            ((wordCorrect predictions labels : ℚ) / (nbWords predictions labels : ℚ))),
         ("acc", MetricValue.scalar
            (accuracyScore ((charLabels predictions labels).map argmaxIdx)
              ((charPredictions predictions labels).map argmaxIdx))),
         ("precision", MetricValue.scalar
            (precisionScore ((charLabels predictions labels).map argmaxIdx)
              ((charPredictions predictions labels).map argmaxIdx))),
         ("recall", MetricValue.scalar
            (recallScore ((charLabels predictions labels).map argmaxIdx)
              ((charPredictions predictions labels).map argmaxIdx))),
         ("f1", MetricValue.scalar
            (f1Score ((charLabels predictions labels).map argmaxIdx)
              ((charPredictions predictions labels).map argmaxIdx))),
         ("auc", MetricValue.scalar auc)] : MetricRecord).lookup "word_acc"
      = some (MetricValue.scalar
          ((wordCorrect predictions labels : ℚ) / (nbWords predictions labels : ℚ))) := rfl
    _ = some (MetricValue.scalar
          (((predictions.flatten.zip labels.flatten).countP
              (fun wl => decide (argmaxSeq wl.1 = argmaxSeq wl.2)) : ℚ) /
            (labels.flatten.length : ℚ))) := by
        rw [wordCorrect_eq_flat_count hal, nbWords_eq_flat_length hal]

/-- C3 witness: a concrete two-word pass with perfect predictions, fed
through the theorem. -/
theorem c3_word_acc_is_argmax_match_fraction_witness :
    List.Forall₂ (fun (bp bl : BatchPred) => bp.length = bl.length)
      [[[[(1 : ℚ), 0], [0, 1]], [[0, 1], [1, 0]]]]
      [[[[(1 : ℚ), 0], [0, 1]], [[0, 1], [1, 0]]]] ∧
    recordLookup (Evaluate.evaluate [[[[(1 : ℚ), 0], [0, 1]], [[0, 1], [1, 0]]]]
        [[[[(1 : ℚ), 0], [0, 1]], [[0, 1], [1, 0]]]]) "word_acc" =
      some (MetricValue.scalar
        (((([[[[(1 : ℚ), 0], [0, 1]], [[0, 1], [1, 0]]]] :
              List BatchPred).flatten.zip
            ([[[[(1 : ℚ), 0], [0, 1]], [[0, 1], [1, 0]]]] :
              List BatchPred).flatten).countP
            (fun wl => decide (argmaxSeq wl.1 = argmaxSeq wl.2)) : ℚ) /
          (([[[[(1 : ℚ), 0], [0, 1]], [[0, 1], [1, 0]]]] :
              List BatchPred).flatten.length : ℚ))) := by
  refine ⟨List.Forall₂.cons rfl List.Forall₂.nil, ?_⟩
  obtain ⟨r, hr⟩ : ∃ r, Evaluate.evaluate [[[[(1 : ℚ), 0], [0, 1]], [[0, 1], [1, 0]]]]
      [[[[(1 : ℚ), 0], [0, 1]], [[0, 1], [1, 0]]]] = Except.ok r := ⟨_, rfl⟩
  rw [hr]
  exact c3_word_acc_is_argmax_match_fraction
    [[[[(1 : ℚ), 0], [0, 1]], [[0, 1], [1, 0]]]]
    [[[[(1 : ℚ), 0], [0, 1]], [[0, 1], [1, 0]]]] r
    (List.Forall₂.cons rfl List.Forall₂.nil) hr

/-- C1: the `_processed` metric record is not an independent decode-based
computation — metrics.py line 94 calls `evaluate` again on the same raw
`epoch_predictions` and `epoch_labels`, so every `_processed` entry holds the
very same value as its raw counterpart. Concretely, on the pass whose single
ground truth is `Sample "ab" ["ab"]` with label one-hot `[[1,0],[0,1]]` and
the invalid prediction `[[0,1],[0,1]]` (a continuation tag at character 0):
the raw and `_processed` `word_acc` log entries are the identical fraction
`wordCorrect / nb_words = 0 / 1`, while the spec's re-decode comparison
repairs the prediction to `Sample "ab" ["ab"]` and finds all 1 of 1 decoded
samples equal to the ground truth — so the `_processed` record does not hold
the decode-based sample accuracy and can never exceed the raw metrics. -/
theorem c1_processed_record_is_copy_of_raw_not_redecode :
    logsLookup (Evaluate.on_epoch_end "test_" to_sampleSpec
        (fun _ : List Nat => [[[(0 : ℚ), 1], [0, 1]]])
        [⟨[0], [[[(1 : ℚ), 0], [0, 1]]], [Sample.mk "ab" ["ab"]]⟩] 1) "test_word_acc" =
      some (MetricValue.scalar
        ((wordCorrect [[[[(0 : ℚ), 1], [0, 1]]]] [[[[(1 : ℚ), 0], [0, 1]]]] : ℚ) /
          (nbWords [[[[(0 : ℚ), 1], [0, 1]]]] [[[[(1 : ℚ), 0], [0, 1]]]] : ℚ))) ∧
    logsLookup (Evaluate.on_epoch_end "test_" to_sampleSpec
        (fun _ : List Nat => [[[(0 : ℚ), 1], [0, 1]]])
        [⟨[0], [[[(1 : ℚ), 0], [0, 1]]], [Sample.mk "ab" ["ab"]]⟩] 1)
        "test_word_acc_processed" =
      some (MetricValue.scalar
        ((wordCorrect [[[[(0 : ℚ), 1], [0, 1]]]] [[[[(1 : ℚ), 0], [0, 1]]]] : ℚ) /
          (nbWords [[[[(0 : ℚ), 1], [0, 1]]]] [[[[(1 : ℚ), 0], [0, 1]]]] : ℚ))) ∧
    wordCorrect [[[[(0 : ℚ), 1], [0, 1]]]] [[[[(1 : ℚ), 0], [0, 1]]]] = 0 ∧
    nbWords [[[[(0 : ℚ), 1], [0, 1]]]] [[[[(1 : ℚ), 0], [0, 1]]]] = 1 ∧
    (consumedSamples [⟨[0], [[[(1 : ℚ), 0], [0, 1]]], [Sample.mk "ab" ["ab"]]⟩] 1).length
      = 1 ∧
    ((consumedSamples [⟨[0], [[[(1 : ℚ), 0], [0, 1]]], [Sample.mk "ab" ["ab"]]⟩] 1).zip
        (consumedPredictions (fun _ : List Nat => [[[(0 : ℚ), 1], [0, 1]]])
          [⟨[0], [[[(1 : ℚ), 0], [0, 1]]], [Sample.mk "ab" ["ab"]]⟩] 1)).countP
      (fun sp => decide (to_sampleSpec sp.1.word sp.2 = sp.1)) = 1 := by
  refine ⟨rfl, rfl, by decide, by decide, rfl, by decide⟩

theorem map_swap_filter_zip {α β : Type} (p : β → α → Bool) :
    ∀ (xs : List α) (ys : List β),
      (List.filter (fun cp => p cp.2 cp.1) (xs.zip ys)).map (fun cp => (cp.2, cp.1)) =
        List.filter (fun pe => p pe.1 pe.2) (ys.zip xs) := by
  intro xs
  induction xs with
  | nil =>
    intro ys
    cases ys <;> rfl
  | cons x xs ih =>
    intro ys
    cases ys with
    | nil => rfl
    | cons y ys =>
      simp only [List.zip_cons_cons, List.filter_cons]
      by_cases hp : p y x = true
      · simp only [hp, if_true]
        simp [ih, hp]
      · simp only [hp, if_false]
        simp [ih, hp]

/-- C4: whenever `Evaluate.on_epoch_end` returns, it returns three lists —
the decoded predictions, in exactly the order of the consumed inputs (the
i-th decoded prediction is `to_sample` of the i-th consumed sample's word and
the i-th model output row), the (predicted, expected) pairs whose decoded
prediction equals the ground truth, and those whose decoded prediction does
not — with no reordering introduced at evaluation time. -/
theorem c4_on_epoch_end_returns_in_input_order {ι : Type} (prepend_str : String)
    (to_sample : String → WordPred → Sample) (modelPredict : List ι → BatchPred)
    (gen : List (Batch ι)) (nb_steps : Nat)
    (hlen : ∀ b ∈ gen.take nb_steps,
      (modelPredict b.inputs).length = b.samples.length ∧
      b.labels.length = b.samples.length)
    (logs : MetricRecord) (c w : List (Sample × Sample)) (preds : List Sample)
    (h : Evaluate.on_epoch_end prepend_str to_sample modelPredict gen nb_steps =
      Except.ok (logs, c, w, preds)) :
    preds = List.zipWith (fun s pr => to_sample s.word pr)
      (consumedSamples gen nb_steps) (consumedPredictions modelPredict gen nb_steps) ∧
    preds.length = (consumedSamples gen nb_steps).length ∧
    c = (preds.zip (consumedSamples gen nb_steps)).filter
      (fun pe => decide (pe.1 = pe.2)) ∧
    w = (preds.zip (consumedSamples gen nb_steps)).filter
      (fun pe => !(decide (pe.1 = pe.2))) := by
  obtain ⟨hlen', hp, hc, hw⟩ := onEpochEnd_ok_components h
  refine ⟨onEpochEnd_preds_eq hlen h, hlen'.symm, ?_, ?_⟩
  · rw [hc]
    exact map_swap_filter_zip (fun a b => decide (a = b)) (consumedSamples gen nb_steps) preds
  · rw [hw]
    exact map_swap_filter_zip (fun a b => !(decide (a = b)))
      (consumedSamples gen nb_steps) preds

theorem onEpochEnd_ok_of_map_ok {ι : Type} {prepend_str : String}
    {to_sample : String → WordPred → Sample} {modelPredict : List ι → BatchPred}
    {gen : List (Batch ι)} {nb_steps : Nat}
    {trip : List (Sample × Sample) × List (Sample × Sample) × List Sample}
    (h : (Evaluate.on_epoch_end prepend_str to_sample modelPredict gen nb_steps).map
      (fun r => r.2) = Except.ok trip) :
    ∃ logs, Evaluate.on_epoch_end prepend_str to_sample modelPredict gen nb_steps =
      Except.ok (logs, trip) := by
  cases he : Evaluate.on_epoch_end prepend_str to_sample modelPredict gen nb_steps with
  | error e =>
    rw [he] at h
    exact absurd h (by simp [Except.map])
  | ok r =>
    rw [he] at h
    simp only [Except.map, Except.ok.injEq] at h
    refine ⟨r.1, ?_⟩
    rw [← h]

/-- C4 witness: the two-batch toy pass — the returned triple is the ordered
decoded predictions with the correct/wrong pair lists. -/
theorem c4_on_epoch_end_returns_in_input_order_witness :
    (Evaluate.on_epoch_end "test_" to_sampleSpec toyModel toyGen 2).map (fun r => r.2) =
      Except.ok ([(Sample.mk "ab" ["ab"], Sample.mk "ab" ["ab"]),
                  (Sample.mk "cd" ["cd"], Sample.mk "cd" ["cd"])], [],
                 [Sample.mk "ab" ["ab"], Sample.mk "cd" ["cd"]]) ∧
    ((toyGen.take 2).all (fun b => decide ((toyModel b.inputs).length = b.samples.length ∧
      b.labels.length = b.samples.length)) = true) ∧
    [Sample.mk "ab" ["ab"], Sample.mk "cd" ["cd"]] =
      List.zipWith (fun s pr => to_sampleSpec s.word pr)
        (consumedSamples toyGen 2) (consumedPredictions toyModel toyGen 2) ∧
    ([Sample.mk "ab" ["ab"], Sample.mk "cd" ["cd"]] : List Sample).length =
      (consumedSamples toyGen 2).length ∧
    [(Sample.mk "ab" ["ab"], Sample.mk "ab" ["ab"]),
     (Sample.mk "cd" ["cd"], Sample.mk "cd" ["cd"])] =
      ([Sample.mk "ab" ["ab"], Sample.mk "cd" ["cd"]].zip
        (consumedSamples toyGen 2)).filter (fun pe => decide (pe.1 = pe.2)) := by
  have hmap : (Evaluate.on_epoch_end "test_" to_sampleSpec toyModel toyGen 2).map
      (fun r => r.2) =
      Except.ok ([(Sample.mk "ab" ["ab"], Sample.mk "ab" ["ab"]),
                  (Sample.mk "cd" ["cd"], Sample.mk "cd" ["cd"])], [],
                 [Sample.mk "ab" ["ab"], Sample.mk "cd" ["cd"]]) := by decide
  obtain ⟨logs, hres⟩ := onEpochEnd_ok_of_map_ok hmap
  have hmain := c4_on_epoch_end_returns_in_input_order "test_" to_sampleSpec toyModel
    toyGen 2 (by decide) logs _ _ _ hres
  exact ⟨hmap, by decide, hmain.1, hmain.2.1, hmain.2.2.1⟩

/-- C10: the correct and wrong lists partition the consumed inputs — every
consumed (ground truth, decoded prediction) pair lands in exactly one of the
two lists, as the `(predicted, expected)` pair, in the correct list iff the
decoded prediction equals the ground truth; the list lengths add up to the
number of decoded predictions, which (by the assert of metrics.py line 92)
equals the number of consumed input samples. -/
theorem c10_correct_wrong_partition {ι : Type} (prepend_str : String)
    (to_sample : String → WordPred → Sample) (modelPredict : List ι → BatchPred)
    (gen : List (Batch ι)) (nb_steps : Nat)
    (logs : MetricRecord) (c w : List (Sample × Sample)) (preds : List Sample)
    (h : Evaluate.on_epoch_end prepend_str to_sample modelPredict gen nb_steps =
      Except.ok (logs, c, w, preds)) :
    preds.length = (consumedSamples gen nb_steps).length ∧
    c.length = ((consumedSamples gen nb_steps).zip preds).countP
      (fun cp => decide (cp.2 = cp.1)) ∧
    w.length = ((consumedSamples gen nb_steps).zip preds).countP
      (fun cp => !(decide (cp.2 = cp.1))) ∧
    c.length + w.length = preds.length ∧
    (∀ pr ex : Sample, (pr, ex) ∈ c ↔
      ((ex, pr) ∈ (consumedSamples gen nb_steps).zip preds ∧ pr = ex)) ∧
    (∀ pr ex : Sample, (pr, ex) ∈ w ↔
      ((ex, pr) ∈ (consumedSamples gen nb_steps).zip preds ∧ pr ≠ ex)) := by
  obtain ⟨hlen', hp, hc, hw⟩ := onEpochEnd_ok_components h
  have hz : ((consumedSamples gen nb_steps).zip preds).length = preds.length := by
    rw [List.length_zip, hlen']
    exact min_self _
  have hcl : c.length = ((consumedSamples gen nb_steps).zip preds).countP
      (fun cp => decide (cp.2 = cp.1)) := by
    rw [hc, List.length_map, ← List.countP_eq_length_filter]
  have hwl : w.length = ((consumedSamples gen nb_steps).zip preds).countP
      (fun cp => !(decide (cp.2 = cp.1))) := by
    rw [hw, List.length_map, ← List.countP_eq_length_filter]
  refine ⟨hlen'.symm, hcl, hwl, ?_, ?_, ?_⟩
  · rw [hcl, hwl, ← hz]
    have hcongr : ((consumedSamples gen nb_steps).zip preds).countP
        (fun cp => !(decide (cp.2 = cp.1))) =
        ((consumedSamples gen nb_steps).zip preds).countP
        (fun cp => decide (¬((fun cp => decide (cp.2 = cp.1)) cp = true))) := by
      apply List.countP_congr
      intro cp _
      by_cases hcp : cp.2 = cp.1 <;> simp [hcp]
    rw [hcongr]
    exact (List.length_eq_countP_add_countP (fun cp : Sample × Sample => decide (cp.2 = cp.1))
      ((consumedSamples gen nb_steps).zip preds)).symm
  · intro pr ex
    rw [hc]
    simp only [List.mem_map, List.mem_filter, decide_eq_true_eq, Prod.mk.injEq]
    constructor
    · rintro ⟨⟨a, b⟩, ⟨hmem, hab⟩, hb, ha⟩
      subst hb
      subst ha
      exact ⟨hmem, hab⟩
    · rintro ⟨hmem, heq⟩
      exact ⟨(ex, pr), ⟨hmem, heq⟩, rfl, rfl⟩
  · intro pr ex
    rw [hw]
    simp only [List.mem_map, List.mem_filter, Bool.not_eq_true', decide_eq_false_iff_not,
      Prod.mk.injEq]
    constructor
    · rintro ⟨⟨a, b⟩, ⟨hmem, hab⟩, hb, ha⟩
      subst hb
      subst ha
      exact ⟨hmem, hab⟩
    · rintro ⟨hmem, hne⟩
      exact ⟨(ex, pr), ⟨hmem, hne⟩, rfl, rfl⟩

/-- C10 witness: the toy pass consuming one batch — one correct pair, no
wrong pair, counts adding up. -/
theorem c10_correct_wrong_partition_witness :
    (Evaluate.on_epoch_end "val_" to_sampleSpec toyModel toyGen 1).map (fun r => r.2) =
      Except.ok ([(Sample.mk "ab" ["ab"], Sample.mk "ab" ["ab"])], [],
                 [Sample.mk "ab" ["ab"]]) ∧
    ([Sample.mk "ab" ["ab"]] : List Sample).length = (consumedSamples toyGen 1).length ∧
    ([(Sample.mk "ab" ["ab"], Sample.mk "ab" ["ab"])] :
        List (Sample × Sample)).length +
      ([] : List (Sample × Sample)).length = ([Sample.mk "ab" ["ab"]] : List Sample).length ∧
    ((Sample.mk "ab" ["ab"], Sample.mk "ab" ["ab"]) ∈
        ([(Sample.mk "ab" ["ab"], Sample.mk "ab" ["ab"])] : List (Sample × Sample)) ↔
      ((Sample.mk "ab" ["ab"], Sample.mk "ab" ["ab"]) ∈
        (consumedSamples toyGen 1).zip [Sample.mk "ab" ["ab"]] ∧
        Sample.mk "ab" ["ab"] = Sample.mk "ab" ["ab"])) := by
  have hmap : (Evaluate.on_epoch_end "val_" to_sampleSpec toyModel toyGen 1).map
      (fun r => r.2) =
      Except.ok ([(Sample.mk "ab" ["ab"], Sample.mk "ab" ["ab"])], [],
                 [Sample.mk "ab" ["ab"]]) := by decide
  obtain ⟨logs, hres⟩ := onEpochEnd_ok_of_map_ok hmap
  have hmain := c10_correct_wrong_partition "val_" to_sampleSpec toyModel
    toyGen 1 logs _ _ _ hres
  exact ⟨hmap, hmain.1, hmain.2.2.2.1, hmain.2.2.2.2.1 (Sample.mk "ab" ["ab"])
    (Sample.mk "ab" ["ab"])⟩

/-- C2: whenever `Word2Morph.evaluate` returns, the list of all decoded
predictions it returns is extensionally equal to an independently computed
`Word2Morph.predict` pass over the same inputs and batch size, and its
correct-list length agrees with the correctness count obtained by comparing
that independent `predict` pass against the inputs — decoding is a pure
function of the tensors, so the two computations cannot diverge. -/
theorem c2_evaluate_agrees_with_predict {ι : Type} (proc : DataProcessor ι)
    (modelPredict : List ι → BatchPred)
    (hm : ∀ b, (modelPredict b).length = b.length)
    (inputs : List Sample) (batch_size : Nat) (hB : batch_size ≠ 0)
    (c w : List (Sample × Sample)) (preds : List Sample)
    (h : Word2Morph.evaluate proc modelPredict inputs batch_size =
      Except.ok (c, w, preds)) :
    preds = Word2Morph.predict proc modelPredict inputs batch_size ∧
    c.length = ((Word2Morph.predict proc modelPredict inputs batch_size).zip
      inputs).countP (fun pc => decide (pc.1 = pc.2)) := by
  simp only [Word2Morph.evaluate] at h
  obtain ⟨logs, hres⟩ := onEpochEnd_ok_of_map_ok h
  have hlen : ∀ b ∈ (dataGenerator proc batch_size inputs).take
      (dataGenerator proc batch_size inputs).length,
      (modelPredict b.inputs).length = b.samples.length ∧
      b.labels.length = b.samples.length := by
    intro b hb
    have hb' := List.mem_of_mem_take hb
    simp only [dataGenerator, List.mem_map] at hb'
    obtain ⟨ch, -, rfl⟩ := hb'
    exact ⟨by rw [hm, proc.parse_length], proc.labels_length ch⟩
  have hsam : consumedSamples (dataGenerator proc batch_size inputs)
      (dataGenerator proc batch_size inputs).length = inputs := by
    unfold consumedSamples dataGenerator
    rw [List.take_length, List.map_map]
    have hid : (chunkList batch_size inputs).map
        ((fun b : Batch ι => b.samples) ∘
          (fun ch => (⟨proc.parseInputs ch, proc.parseLabels ch, ch⟩ : Batch ι))) =
        (chunkList batch_size inputs).map id := rfl
    rw [hid, List.map_id, chunkList_flatten batch_size hB]
  have hpre : consumedPredictions modelPredict (dataGenerator proc batch_size inputs)
      (dataGenerator proc batch_size inputs).length =
      flatPredictions proc modelPredict batch_size inputs := by
    unfold consumedPredictions flatPredictions dataGenerator
    rw [List.take_length, List.map_map]
    rfl
  have hpeq : preds = Word2Morph.predict proc modelPredict inputs batch_size := by
    rw [onEpochEnd_preds_eq hlen hres, hsam, hpre,
      (predict_eq_zipWith proc modelPredict hm inputs batch_size hB).1]
  refine ⟨hpeq, ?_⟩
  obtain ⟨-, -, hc, -⟩ := onEpochEnd_ok_components hres
  rw [hsam] at hc
  rw [hc, List.length_map, ← List.countP_eq_length_filter, ← hpeq, ← List.zip_swap,
    List.countP_map]
  rfl

/-- C2 witness: a concrete two-sample evaluation run, cross-checked against
the independent predict pass. -/
theorem c2_evaluate_agrees_with_predict_witness :
    Word2Morph.evaluate toyProcessor toyModel
        [Sample.mk "ab" ["ab"], Sample.mk "cd" ["cd"]] 1 =
      Except.ok ([(Sample.mk "ab" ["ab"], Sample.mk "ab" ["ab"]),
                  (Sample.mk "cd" ["cd"], Sample.mk "cd" ["cd"])], [],
                 [Sample.mk "ab" ["ab"], Sample.mk "cd" ["cd"]]) ∧
    [Sample.mk "ab" ["ab"], Sample.mk "cd" ["cd"]] =
      Word2Morph.predict toyProcessor toyModel
        [Sample.mk "ab" ["ab"], Sample.mk "cd" ["cd"]] 1 ∧
    ([(Sample.mk "ab" ["ab"], Sample.mk "ab" ["ab"]),
      (Sample.mk "cd" ["cd"], Sample.mk "cd" ["cd"])] :
        List (Sample × Sample)).length =
      ((Word2Morph.predict toyProcessor toyModel
          [Sample.mk "ab" ["ab"], Sample.mk "cd" ["cd"]] 1).zip
        [Sample.mk "ab" ["ab"], Sample.mk "cd" ["cd"]]).countP
        (fun pc => decide (pc.1 = pc.2)) := by
  have hm : ∀ b : List Nat, (toyModel b).length = b.length := by
    intro b
    simp [toyModel]
  have h : Word2Morph.evaluate toyProcessor toyModel
      [Sample.mk "ab" ["ab"], Sample.mk "cd" ["cd"]] 1 =
      Except.ok ([(Sample.mk "ab" ["ab"], Sample.mk "ab" ["ab"]),
                  (Sample.mk "cd" ["cd"], Sample.mk "cd" ["cd"])], [],
                 [Sample.mk "ab" ["ab"], Sample.mk "cd" ["cd"]]) := by decide
  have hmain := c2_evaluate_agrees_with_predict toyProcessor toyModel hm
    [Sample.mk "ab" ["ab"], Sample.mk "cd" ["cd"]] 1 (by decide) _ _ _ h
  exact ⟨h, hmain.1, hmain.2⟩

/-- C7: the indexed lookup is extensionally equal to the batched predict
path: for every Sample item, `Word2Morph[item]` equals
`predict([item], batch_size=1)[0]`, and a plain word string is first wrapped
as a Sample with empty segments and then follows the same path. -/
theorem c7_getitem_eq_single_predict {ι : Type} [Inhabited ι] (proc : DataProcessor ι)
    (modelPredict : List ι → BatchPred)
    (hm : ∀ b, (modelPredict b).length = b.length) (s : Sample) :
    Word2Morph.getitemSample proc modelPredict s =
      (Word2Morph.predict proc modelPredict [s] 1).headI ∧
    Word2Morph.getitemStr proc modelPredict s.word =
      (Word2Morph.predict proc modelPredict [Sample.mk s.word []] 1).headI := by
  have key : ∀ t : Sample, Word2Morph.getitemSample proc modelPredict t =
      (Word2Morph.predict proc modelPredict [t] 1).headI := by
    intro t
    obtain ⟨a, ha⟩ := List.length_eq_one.mp (proc.parse_length [t])
    obtain ⟨pr, hpr⟩ := List.length_eq_one.mp ((hm [a]).trans rfl)
    have hch : chunkList 1 [t] = [[t]] := by
      rw [chunkList_cons 1 one_ne_zero t []]
      show [t] :: chunkList 1 [] = [[t]]
      rw [chunkList_nil]
    have hpredict : Word2Morph.predict proc modelPredict [t] 1 =
        [proc.to_sample t.word pr] := by
      unfold Word2Morph.predict dataGenerator
      rw [hch]
      simp [ha, hpr]
    have hgetitem : Word2Morph.getitemSample proc modelPredict t =
        proc.to_sample t.word pr := by
      unfold Word2Morph.getitemSample parse_one
      rw [ha]
      simp [hpr]
    rw [hpredict, hgetitem]
    rfl
  exact ⟨key s, key (Sample.mk s.word [])⟩

/-- C7 witness: indexed lookup on the toy model agrees with the batched
predict path, both for the Sample and the wrapped-string entry point, and
evaluates to the decoded single-segment sample. -/
theorem c7_getitem_eq_single_predict_witness :
    Word2Morph.getitemSample toyProcessor toyModel (Sample.mk "ab" ["ab"]) =
      (Word2Morph.predict toyProcessor toyModel [Sample.mk "ab" ["ab"]] 1).headI ∧
    Word2Morph.getitemStr toyProcessor toyModel "ab" =
      (Word2Morph.predict toyProcessor toyModel [Sample.mk "ab" []] 1).headI ∧
    Word2Morph.getitemSample toyProcessor toyModel (Sample.mk "ab" ["ab"]) =
      Sample.mk "ab" ["ab"] := by
  have hm : ∀ b : List Nat, (toyModel b).length = b.length := by
    intro b
    simp [toyModel]
  have hmain := c7_getitem_eq_single_predict toyProcessor toyModel hm
    (Sample.mk "ab" ["ab"])
  exact ⟨hmain.1, hmain.2, by decide⟩

/-- C8: `predict` tolerates the empty input list — it returns the empty list
for every batch size — and for every batch size ≥ 1 it returns exactly one
decoded Sample per input, in exactly the input order: the i-th output is
`to_sample` of the i-th input's word and the i-th flattened model output. -/
theorem c8_predict_tolerates_empty_and_keeps_order {ι : Type} (proc : DataProcessor ι)
    (modelPredict : List ι → BatchPred)
    (hm : ∀ b, (modelPredict b).length = b.length)
    (inputs : List Sample) (batch_size : Nat) :
    (inputs = [] → Word2Morph.predict proc modelPredict inputs batch_size = []) ∧
    (batch_size ≠ 0 →
      Word2Morph.predict proc modelPredict inputs batch_size =
        List.zipWith (fun s pr => proc.to_sample s.word pr) inputs
          (flatPredictions proc modelPredict batch_size inputs) ∧
      (Word2Morph.predict proc modelPredict inputs batch_size).length =
        inputs.length) := by
  constructor
  · rintro rfl
    unfold Word2Morph.predict dataGenerator
    rw [chunkList_nil]
    rfl
  · intro hB
    obtain ⟨h1, h2⟩ := predict_eq_zipWith proc modelPredict hm inputs batch_size hB
    refine ⟨h1, ?_⟩
    rw [h1, List.length_zipWith, h2]
    exact min_self _

/-- C8 witness: empty input gives an empty result; a concrete two-sample
input decodes in order. -/
theorem c8_predict_tolerates_empty_and_keeps_order_witness :
    Word2Morph.predict toyProcessor toyModel [] 2 = [] ∧
    Word2Morph.predict toyProcessor toyModel
        [Sample.mk "ab" ["ab"], Sample.mk "cd" ["cd"]] 2 =
      List.zipWith (fun s pr => toyProcessor.to_sample s.word pr)
        [Sample.mk "ab" ["ab"], Sample.mk "cd" ["cd"]]
        (flatPredictions toyProcessor toyModel 2
          [Sample.mk "ab" ["ab"], Sample.mk "cd" ["cd"]]) ∧
    (Word2Morph.predict toyProcessor toyModel
        [Sample.mk "ab" ["ab"], Sample.mk "cd" ["cd"]] 2).length = 2 ∧
    Word2Morph.predict toyProcessor toyModel
        [Sample.mk "ab" ["ab"], Sample.mk "cd" ["cd"]] 2 =
      [Sample.mk "ab" ["ab"], Sample.mk "cd" ["cd"]] := by
  have hm : ∀ b : List Nat, (toyModel b).length = b.length := by
    intro b
    simp [toyModel]
  exact ⟨(c8_predict_tolerates_empty_and_keeps_order toyProcessor toyModel hm [] 2).1 rfl,
    ((c8_predict_tolerates_empty_and_keeps_order toyProcessor toyModel hm
      [Sample.mk "ab" ["ab"], Sample.mk "cd" ["cd"]] 2).2 (by decide)).1,
    ((c8_predict_tolerates_empty_and_keeps_order toyProcessor toyModel hm
      [Sample.mk "ab" ["ab"], Sample.mk "cd" ["cd"]] 2).2 (by decide)).2,
    by decide⟩
